import Mathlib

/-!
Verification of the calendar-api repository: a shallow embedding of the
event model, the `DateRangeHelper` date computations in
`core_apps/events/business.py`, the period listing views in
`core_apps/events/views.py`, the serializer in
`core_apps/events/serializers.py` and the permission class in
`core_apps/events/permissions.py`, together with theorems settling the
specification claims about them.

The date arithmetic mirrors Python's `datetime.date`: dates are proleptic
Gregorian triples, `toOrdinal` is `date.toordinal()` (0001-01-01 is day 1),
`date + timedelta(days=k)` checks `0 < ordinal ≤ 3652059` and raises
`OverflowError` outside that range, and `datetime.strptime(s, "%Y-%m-%d")`
is embedded with CPython's actual field patterns (a 4-digit year, a one- or
two-digit month and day) followed by `datetime.date`'s range validation.
-/

namespace CalendarApi

/-- Python exceptions that the embedded code can raise.  The views catch
only `ValueError`; an `OverflowError` propagates out of the request. -/
inductive PyError
  | valueError
  | overflowError
deriving DecidableEq, Repr

deriving instance DecidableEq for Except

/-- A calendar date, as the (year, month, day) triple stored by
`datetime.date`. -/
structure Date where
  year : Nat
  month : Nat
  day : Nat
deriving DecidableEq, Repr

/-- Embeds `calendar.isleap` / `datetime._is_leap`: a Gregorian leap year. -/
def isLeap (y : Nat) : Bool :=
  y % 4 == 0 && (y % 100 != 0 || y % 400 == 0)

/-- Embeds `datetime._days_in_month` / `calendar.monthrange`: number of days of
month `m` of year `y`. -/
def daysInMonth (y m : Nat) : Nat :=
  if m = 2 then (if isLeap y then 29 else 28)
  else if m = 4 ∨ m = 6 ∨ m = 9 ∨ m = 11 then 30
  else 31

/-- Embeds `datetime._days_before_month`: days of year `y` strictly before month
`m` (the `_DAYS_BEFORE_MONTH` table plus the leap-day correction). -/
def daysBeforeMonth (y m : Nat) : Nat :=
  (if m ≤ 1 then 0 else if m = 2 then 31 else if m = 3 then 59
   else if m = 4 then 90 else if m = 5 then 120 else if m = 6 then 151
   else if m = 7 then 181 else if m = 8 then 212 else if m = 9 then 243
   else if m = 10 then 273 else if m = 11 then 304 else if m = 12 then 334
   else 365)
  + (if 2 < m ∧ isLeap y then 1 else 0)

/-- Embeds `datetime._days_before_year`: days strictly before January 1 of year
`y` in the proleptic Gregorian calendar. -/
def daysBeforeYear (y : Nat) : Nat :=
  365 * (y - 1) + (y - 1) / 4 - (y - 1) / 100 + (y - 1) / 400

/-- Number of days of year `y`. -/
def daysInYear (y : Nat) : Nat :=
  if isLeap y then 366 else 365

/-- Embeds `date.toordinal()`: 0001-01-01 is day 1. -/
def toOrdinal (d : Date) : Nat :=
  daysBeforeYear d.year + daysBeforeMonth d.year d.month + d.day

/-- Embeds `datetime._MAXORDINAL`, the ordinal of 9999-12-31. -/
def maxOrdinal : Nat := 3652059

/-- The validity check performed by the `datetime.date` constructor:
`MINYEAR ≤ year ≤ MAXYEAR`, `1 ≤ month ≤ 12`,
`1 ≤ day ≤ days_in_month(year, month)`. -/
def Date.Valid (d : Date) : Prop :=
  1 ≤ d.year ∧ d.year ≤ 9999 ∧ 1 ≤ d.month ∧ d.month ≤ 12 ∧
    1 ≤ d.day ∧ d.day ≤ daysInMonth d.year d.month

instance (d : Date) : Decidable d.Valid := by
  unfold Date.Valid; exact inferInstance

/-- Year search used by the embedding of `date.fromordinal`: starting from
a year `y` known to begin strictly before day `n`, walk forward to the
year containing day `n`. -/
def findYearAux (n : Nat) : Nat → Nat → Nat
  | y, 0 => y
  | y, fuel + 1 => if n ≤ daysBeforeYear (y + 1) then y else findYearAux n (y + 1) fuel

/-- Month search used by the embedding of `date.fromordinal`: `doy` is the
one-based day of year. -/
def findMonthAux (y doy : Nat) : Nat → Nat → Nat
  | m, 0 => m
  | m, fuel + 1 =>
      if doy ≤ daysBeforeMonth y (m + 1) then m else findMonthAux y doy (m + 1) fuel

/-- Year of the date with ordinal `n` (the components of the embedding of
`date.fromordinal`).  The year search is seeded at `(n-1)/366 + 1`, which
always starts at or before the containing year. -/
def ordYear (n : Nat) : Nat := findYearAux n ((n - 1) / 366 + 1) 9999

/-- Day of year (one-based) of ordinal `n`, within year `ordYear n`. -/
def ordDoy (n : Nat) : Nat := n - daysBeforeYear (ordYear n)

/-- Month of ordinal `n`. -/
def ordMonth (n : Nat) : Nat := findMonthAux (ordYear n) (ordDoy n) 1 11

/-- Embeds `date.fromordinal n` for `1 ≤ n ≤ maxOrdinal`: the inverse of
`toOrdinal`. -/
def fromOrdinal (n : Nat) : Date :=
  ⟨ordYear n, ordMonth n, ordDoy n - daysBeforeMonth (ordYear n) (ordMonth n)⟩

/-- Embeds `date.__add__` with a day-count `timedelta` (and `__sub__`, via a
negative count): computes the shifted ordinal and raises `OverflowError`
unless `0 < o ≤ _MAXORDINAL`. -/
def pyDateAddInt (d : Date) (k : Int) : Except PyError Date :=
  if 0 < (toOrdinal d : Int) + k ∧ (toOrdinal d : Int) + k ≤ (maxOrdinal : Int) then
    .ok (fromOrdinal ((toOrdinal d : Int) + k).toNat)
  else .error .overflowError

/-- Embeds `date.weekday()`: Monday is 0. -/
def weekday (d : Date) : Nat :=
  (toOrdinal d + 6) % 7

/-! ### strptime for the fixed format `"%Y-%m-%d"`

CPython's `_strptime` compiles `%Y` to `\d\d\d\d`, `%m` to
`1[0-2]|0[1-9]|[1-9]` and `%d` to `3[01]|[12]\d|0[1-9]|[1-9]`, matches the
resulting pattern at the start of the string, requires the whole string to
be consumed, and finally constructs `datetime.date(y, m, d)`, which
validates the ranges and raises `ValueError` on failure. -/

/-- Numeric value of a decimal digit character. -/
def dval (c : Char) : Nat := c.toNat - 48

/-- Candidate matches for the `%m` pattern `1[0-2]|0[1-9]|[1-9]`, in the
regex's alternation order, each with the unconsumed remainder. -/
def monthCands : List Char → List (Nat × List Char)
  | c1 :: c2 :: rest =>
      (if c1 = '1' ∧ '0' ≤ c2 ∧ c2 ≤ '2' then [(10 + dval c2, rest)] else []) ++
      (if c1 = '0' ∧ '1' ≤ c2 ∧ c2 ≤ '9' then [(dval c2, rest)] else []) ++
      (if '1' ≤ c1 ∧ c1 ≤ '9' then [(dval c1, c2 :: rest)] else [])
  | [c1] => if '1' ≤ c1 ∧ c1 ≤ '9' then [(dval c1, [])] else []
  | [] => []

/-- Candidate matches for the `%d` pattern `3[01]|[12]\d|0[1-9]|[1-9]`, in
the regex's alternation order. -/
def dayCands : List Char → List (Nat × List Char)
  | c1 :: c2 :: rest =>
      (if c1 = '3' ∧ '0' ≤ c2 ∧ c2 ≤ '1' then [(30 + dval c2, rest)] else []) ++
      (if ('1' ≤ c1 ∧ c1 ≤ '2') ∧ c2.isDigit then [(10 * dval c1 + dval c2, rest)] else []) ++
      (if c1 = '0' ∧ '1' ≤ c2 ∧ c2 ≤ '9' then [(dval c2, rest)] else []) ++
      (if '1' ≤ c1 ∧ c1 ≤ '9' then [(dval c1, c2 :: rest)] else [])
  | [c1] => if '1' ≤ c1 ∧ c1 ≤ '9' then [(dval c1, [])] else []
  | [] => []

/-- Match the compiled pattern `\d\d\d\d-(%m)-(%d)` at the start of the
character list, with the regex's ordered-alternation backtracking; returns
the three field values and the unconsumed remainder. -/
def scanYmd (cs : List Char) : Option (Nat × Nat × Nat × List Char) :=
  match cs with
  | a :: b :: c :: d :: '-' :: rest =>
      if a.isDigit ∧ b.isDigit ∧ c.isDigit ∧ d.isDigit then
        (monthCands rest).findSome? (fun mc =>
          match mc.2 with
          | '-' :: r2 =>
              ((dayCands r2).head?).map (fun dc =>
                (1000 * dval a + 100 * dval b + 10 * dval c + dval d, mc.1, dc.1, dc.2))
          | _ => none)
      else none
  | _ => none

/-- Embeds `datetime.strptime(s, "%Y-%m-%d").date()`: `none` models the
`ValueError` raised on a pattern mismatch, unconsumed trailing text, or an
out-of-range calendar date. -/
def strptimeYmd (s : String) : Option Date :=
  match scanYmd s.data with
  | some (y, m, d, rest) =>
      if rest = [] ∧ (Date.mk y m d).Valid then some ⟨y, m, d⟩ else none
  | none => none

/-- Renders `str(n)` left-padded with zeros to width 2, as in `"%02d"`. -/
def pad2 (n : Nat) : String :=
  if n < 10 then "0" ++ toString n else toString n

/-- Renders `str(n)` left-padded with zeros to width 4, as in `"%04d"`. -/
def pad4 (n : Nat) : String :=
  if n < 10 then "000" ++ toString n
  else if n < 100 then "00" ++ toString n
  else if n < 1000 then "0" ++ toString n
  else toString n

/-- Renders `str(date)`, i.e. `"%04d-%02d-%02d"`. -/
def dateToString (d : Date) : String :=
  pad4 d.year ++ "-" ++ pad2 d.month ++ "-" ++ pad2 d.day

/-! ### Data model (`core_apps/users/models.py`, `core_apps/events/models.py`) -/

/-- A time of day (`models.TimeField`); only stored and echoed back. -/
structure Time where
  hour : Nat
  minute : Nat
  second : Nat
deriving DecidableEq, Repr

/-- A user row (`core_apps/users/models.py`): primary key, email, display
name and flags.  Django compares model instances by primary key, so
`userEq` below is primary-key equality. -/
structure User where
  pk : Nat
  email : String
  name : String
  is_active : Bool
  is_staff : Bool
deriving DecidableEq, Repr

/-- Embeds `Model.__eq__` for two rows of the same model: primary-key equality.
Used by `filter(creator=user)` and `obj.creator == request.user`. -/
def userEq (a b : User) : Bool := a.pk == b.pk

/-- An event row (`core_apps/events/models.py`).  The `creator` foreign key
is embedded as the joined user row. -/
structure Event where
  pkid : Nat
  id : Nat
  creator : User
  name : String
  description : String
  date : Date
  start_event : Time
  end_event : Time
deriving DecidableEq, Repr

/-- Renders a time as `"%H:%M:%S"`, the serialized form of a `TimeField`. -/
def timeToString (t : Time) : String :=
  pad2 t.hour ++ ":" ++ pad2 t.minute ++ ":" ++ pad2 t.second

/-- The JSON object produced by `EventSerializer` for one event.  The
serializer also declares a read-only `first_name` field sourced from
`creator.first_name`; the `User` model defines no `first_name` attribute,
and DRF skips a non-required read-only field whose source raises
`AttributeError`, so that key is absent from the output. -/
structure SerializedEvent where
  id : Nat
  name : String
  description : String
  date : String
  start_event : String
  end_event : String
deriving DecidableEq, Repr

/-- Embeds `EventSerializer(event).data`. -/
def serializeEvent (e : Event) : SerializedEvent :=
  { id := e.id
    name := e.name
    description := e.description
    date := dateToString e.date
    start_event := timeToString e.start_event
    end_event := timeToString e.end_event }

/-- The writable part of `EventSerializer`'s field list: everything a
request body can set.  `id` is `editable=False` (hence read-only),
`first_name` is declared `read_only=True`, and `creator`/`pkid` are not in
the field list at all. -/
structure EventWriteData where
  name : String
  description : String
  date : Date
  start_event : Time
  end_event : Time
deriving DecidableEq, Repr

/-- A deserialized request body for create/update.  Beyond the writable
fields it carries the values a client might try to smuggle in for the
non-writable columns; validation discards them. -/
structure EventBody where
  name : String
  description : String
  date : Date
  start_event : Time
  end_event : Time
  creator : Option User
  id : Option Nat
  pkid : Option Nat
  first_name : Option String
deriving DecidableEq, Repr

/-- Embeds `serializer.validated_data`: only the writable declared fields
survive; `creator`, `id`, `pkid` and `first_name` are dropped. -/
def serializerValidate (b : EventBody) : EventWriteData :=
  { name := b.name
    description := b.description
    date := b.date
    start_event := b.start_event
    end_event := b.end_event }

/-- Embeds `EventCreateView.perform_create`: `serializer.save(creator=request.user)`
creates the row from the validated data with `creator` forced to the
requesting user; `pkid` and `id` are generated by the database. -/
def performCreate (u : User) (b : EventBody) (newPkid newId : Nat) : Event :=
  let vd := serializerValidate b
  { pkid := newPkid
    id := newId
    creator := u
    name := vd.name
    description := vd.description
    date := vd.date
    start_event := vd.start_event
    end_event := vd.end_event }

/-- Embeds `ModelSerializer.update`: set each validated attribute on the instance
and save; untouched columns keep their values. -/
def serializerUpdate (inst : Event) (vd : EventWriteData) : Event :=
  { inst with
    name := vd.name
    description := vd.description
    date := vd.date
    start_event := vd.start_event
    end_event := vd.end_event }

/-! ### Permissions and the detail endpoint (`permissions.py`, `views.py`) -/

/-- Embeds `IsCreatorOrReadOnly.has_object_permission`:
`obj.creator == request.user`. -/
def hasObjectPermission (u : User) (e : Event) : Bool :=
  userEq e.creator u

/-- Embeds `EventRetrieveUpdateDeleteView.get_queryset`:
`Event.objects.filter(creator=self.request.user)`. -/
def detailQueryset (store : List Event) (u : User) : List Event :=
  store.filter (fun e => userEq e.creator u)

/-- DRF `get_object` on the detail view: look the `id` up in the
restricted queryset (404 when absent, modelled by `none`). -/
def getObject (store : List Event) (u : User) (eid : Nat) : Option Event :=
  (detailQueryset store u).find? (fun e => e.id == eid)

/-- Outcome of a detail-endpoint request. -/
inductive DetailResult (α : Type)
  | notFound
  | forbidden
  | ok (a : α)
deriving DecidableEq, Repr

/-- Object resolution for the detail view: `get_object_or_404` on the
owner-restricted queryset, then `check_object_permissions`. -/
def detailDispatch (store : List Event) (u : User) (eid : Nat) : DetailResult Event :=
  match getObject store u eid with
  | none => .notFound
  | some e => if hasObjectPermission u e then .ok e else .forbidden

/-- GET on the detail endpoint. -/
def retrieveEvent (store : List Event) (u : User) (eid : Nat) :
    DetailResult SerializedEvent :=
  match detailDispatch store u eid with
  | .notFound => .notFound
  | .forbidden => .forbidden
  | .ok e => .ok (serializeEvent e)

/-- PUT on the detail endpoint: returns the updated row. -/
def updateEvent (store : List Event) (u : User) (eid : Nat) (b : EventBody) :
    DetailResult Event :=
  match detailDispatch store u eid with
  | .notFound => .notFound
  | .forbidden => .forbidden
  | .ok e => .ok (serializerUpdate e (serializerValidate b))

/-- DELETE on the detail endpoint: returns the remaining store. -/
def deleteEvent (store : List Event) (u : User) (eid : Nat) :
    DetailResult (List Event) :=
  match detailDispatch store u eid with
  | .notFound => .notFound
  | .forbidden => .forbidden
  | .ok e => .ok (store.filter (fun x => x.pkid != e.pkid))

/-! ### Date range helpers (`core_apps/events/business.py`) -/

/-- Embeds `DateRangeHelper.get_start_and_end_of_week`: parse the date string,
subtract `weekday()` days to reach Monday, add 6 days for Sunday. -/
def getStartAndEndOfWeek (dateStr : String) : Except PyError (Date × Date) :=
  match strptimeYmd dateStr with
  | none => .error .valueError
  | some d =>
      match pyDateAddInt d (-(weekday d : Int)) with
      | .error e => .error e
      | .ok start =>
          match pyDateAddInt start 6 with
          | .error e => .error e
          | .ok e1 => .ok (start, e1)

/-- Embeds `DateRangeHelper.get_first_and_last_day_of_month`: `replace(day=1)` and
`replace(day=calendar.monthrange(y, m)[1])`. -/
def getFirstAndLastDayOfMonth (dateStr : String) : Except PyError (Date × Date) :=
  match strptimeYmd dateStr with
  | none => .error .valueError
  | some d => .ok (⟨d.year, d.month, 1⟩, ⟨d.year, d.month, daysInMonth d.year d.month⟩)

/-- Embeds `DateRangeHelper.get_first_and_last_day_of_year`: January 1 and
December 31 of the date's year. -/
def getFirstAndLastDayOfYear (dateStr : String) : Except PyError (Date × Date) :=
  match strptimeYmd dateStr with
  | none => .error .valueError
  | some d => .ok (⟨d.year, 1, 1⟩, ⟨d.year, 12, 31⟩)

/-! ### The period listing views (`views.py`) -/

/-- Django `filter(date__range=[start, end])`: inclusive comparison of the
date column. -/
def inRange (s e d : Date) : Bool :=
  decide (toOrdinal s ≤ toOrdinal d ∧ toOrdinal d ≤ toOrdinal e)

/-- The fixed 400 body `{"error": "Invalid date format."}`. -/
structure ErrorBody where
  error : String
deriving DecidableEq, Repr

/-- Result of `BaseEventView.get_event_data`: either the `(None, 400
response)` pair or the filtered events with the resolved range. -/
inductive EventDataResult
  | invalid (body : ErrorBody)
  | found (events : List Event) (startEnd : Date × Date)
deriving DecidableEq, Repr

/-- Embeds `BaseEventView.get_event_data`.  The guard `if date_str:` is
Python truthiness, so both an absent parameter and a supplied empty
string take the `else` branch: `timezone.now().date()` (the `today`
parameter) is formatted with `str` and passed to the range function, and
any exception propagates.  With a truthy date string the `try` block
catches only `ValueError` (turning it into the fixed 400 body). -/
def getEventData (store : List Event) (today : Date) (dateStr : Option String)
    (f : String → Except PyError (Date × Date)) : Except PyError EventDataResult :=
  match dateStr with
  | some s =>
      -- `if date_str:` tests Python truthiness: the supplied empty string
      -- is falsy and falls into the `else` (current-date) branch below.
      if s = "" then
        match f (dateToString today) with
        | .ok (s1, e1) =>
            .ok (.found (store.filter (fun ev => inRange s1 e1 ev.date)) (s1, e1))
        | .error e => .error e
      else
        match f s with
        | .ok (s1, e1) =>
            .ok (.found (store.filter (fun ev => inRange s1 e1 ev.date)) (s1, e1))
        | .error .valueError => .ok (.invalid ⟨"Invalid date format."⟩)
        | .error e => .error e
  | none =>
      match f (dateToString today) with
      | .ok (s1, e1) =>
          .ok (.found (store.filter (fun ev => inRange s1 e1 ev.date)) (s1, e1))
      | .error e => .error e

/-- One entry of the `days` list: the date and the serialized events of
that day. -/
structure DayBucket where
  day : Date
  events : List SerializedEvent
deriving DecidableEq, Repr

/-- The success envelope of a week/month/year report: the period label
keyed by the period name, plus the per-day buckets. -/
structure Report where
  periodKey : String
  periodLabel : String
  days : List DayBucket
deriving DecidableEq, Repr

/-- An HTTP-level response of a period endpoint. -/
inductive PeriodResponse
  | badRequest (body : ErrorBody)
  | ok (r : Report)
deriving DecidableEq, Repr

/-- The bucket loop of `BaseEventView.get`: for `n` in
`range(days_count)`, `single_date = start + timedelta(n)` and the events
of that exact day. -/
def buildDays (events : List Event) (start : Date) : Nat → Nat → Except PyError (List DayBucket)
  | _, 0 => .ok []
  | n, k + 1 =>
      match pyDateAddInt start (n : Int) with
      | .error e => .error e
      | .ok d =>
          match buildDays events start (n + 1) k with
          | .error e => .error e
          | .ok rest =>
              .ok ({ day := d
                     events := (events.filter (fun ev => ev.date == d)).map serializeEvent } :: rest)

/-- Embeds `BaseEventView.get`: resolve the range, then emit the
`{period_name: "start - end", days: [...]}` envelope with
`days_count = (end - start).days + 1` buckets.  The `requester` is the
authenticated user; it is accepted but never consulted. -/
def baseGet (store : List Event) (requester : User) (today : Date)
    (dateStr : Option String) (f : String → Except PyError (Date × Date))
    (periodName : String) : Except PyError PeriodResponse :=
  match getEventData store today dateStr f with
  | .error e => .error e
  | .ok (.invalid body) => .ok (.badRequest body)
  | .ok (.found events (s1, e1)) =>
      let daysCount : Int := (toOrdinal e1 : Int) - (toOrdinal s1 : Int) + 1
      match buildDays events s1 0 daysCount.toNat with
      | .error e => .error e
      | .ok bs =>
          .ok (.ok { periodKey := periodName
                     periodLabel := dateToString s1 ++ " - " ++ dateToString e1
                     days := bs })

/-- The flat `{day, events}` body of the single-day endpoint.  `day` is a
string: the verbatim query parameter when one was supplied, otherwise the
serialized server date. -/
structure DayData where
  day : String
  events : List SerializedEvent
deriving DecidableEq, Repr

/-- An HTTP-level response of the day endpoint. -/
inductive DayResponse
  | badRequest (body : ErrorBody)
  | ok (r : DayData)
deriving DecidableEq, Repr

/-- Embeds `DayEventView.get`: parse the supplied date (400 on `ValueError`) or
fall back to `timezone.now().date()`, filter events on that exact date,
and return the flat `{day, events}` structure.  The guard `if day:` is
Python truthiness, so an absent parameter and a supplied empty string
both resolve the server date; with a truthy string the `day` key is bound
to the unparsed query text.  The `requester` is the authenticated user;
it is accepted but never consulted. -/
def dayGet (store : List Event) (requester : User) (today : Date)
    (dateStr : Option String) : DayResponse :=
  match dateStr with
  | some s =>
      -- `if day:` tests Python truthiness: the supplied empty string is
      -- falsy, so `day` is reassigned to the server date as in the `else`
      -- branch below.
      if s = "" then
        .ok { day := dateToString today
              events := (store.filter (fun ev => ev.date == today)).map serializeEvent }
      else
        match strptimeYmd s with
        | some d =>
            .ok { day := s
                  events := (store.filter (fun ev => ev.date == d)).map serializeEvent }
        | none => .badRequest ⟨"Invalid date format."⟩
  | none =>
      .ok { day := dateToString today
            events := (store.filter (fun ev => ev.date == today)).map serializeEvent }

/-- Follows the spec's words, for comparison with the code: the text
"matches the fixed date format YYYY-MM-DD", read literally as four digits,
a dash, two digits, a dash, two digits. -/
def specFormatMatch (s : String) : Bool :=
  match s.data with
  | [a, b, c, d, '-', e, f, '-', g, h] =>
      a.isDigit && b.isDigit && c.isDigit && d.isDigit &&
      e.isDigit && f.isDigit && g.isDigit && h.isDigit
  | _ => false

/-! ### Sample rows used to instantiate the theorems -/

/-- A sample user. -/
def userA : User := ⟨1, "alice@example.com", "Alice", true, false⟩

/-- A second, distinct sample user. -/
def userB : User := ⟨2, "bob@example.com", "Bob", true, false⟩

/-- A sample event owned by `userB`. -/
def eventOfB : Event :=
  ⟨1, 100, userB, "standup", "daily sync", ⟨2024, 8, 15⟩, ⟨9, 0, 0⟩, ⟨9, 30, 0⟩⟩

/-! ### Calendar arithmetic lemmas -/

theorem isLeap_iff (y : Nat) :
    isLeap y = true ↔ (y % 4 = 0 ∧ (y % 100 ≠ 0 ∨ y % 400 = 0)) := by
  simp [isLeap]

set_option maxHeartbeats 1000000 in
theorem daysBeforeYear_succ_leap (y : Nat) (h : 1 ≤ y)
    (hc : y % 4 = 0 ∧ (y % 100 ≠ 0 ∨ y % 400 = 0)) :
    daysBeforeYear (y + 1) = daysBeforeYear y + 366 := by
  unfold daysBeforeYear
  rcases hc with ⟨h4, h100 | h400⟩ <;> omega

set_option maxHeartbeats 3000000 in
theorem daysBeforeYear_succ_nonleap (y : Nat) (h : 1 ≤ y)
    (hc : ¬ (y % 4 = 0 ∧ (y % 100 ≠ 0 ∨ y % 400 = 0))) :
    daysBeforeYear (y + 1) = daysBeforeYear y + 365 := by
  unfold daysBeforeYear
  rw [not_and_or, not_or] at hc
  rcases hc with h4 | ⟨h100, h400⟩
  · omega
  · push_neg at h100
    omega

theorem daysBeforeYear_succ (y : Nat) (h : 1 ≤ y) :
    daysBeforeYear (y + 1) = daysBeforeYear y + daysInYear y := by
  have hiff := isLeap_iff y
  unfold daysInYear
  cases hl : isLeap y with
  | true =>
      rw [if_pos rfl]
      exact daysBeforeYear_succ_leap y h (hiff.mp hl)
  | false =>
      rw [if_neg (by decide)]
      refine daysBeforeYear_succ_nonleap y h ?_
      intro hx
      have hx2 := hiff.mpr hx
      rw [hl] at hx2
      exact absurd hx2 (by decide)

theorem daysInYear_pos (y : Nat) : 365 ≤ daysInYear y := by
  unfold daysInYear
  split <;> omega

theorem daysBeforeYear_mono {a b : Nat} (h : a ≤ b) :
    daysBeforeYear a ≤ daysBeforeYear b := by
  induction b with
  | zero =>
      have ha : a = 0 := by omega
      simp [ha]
  | succ n ih =>
      rcases Nat.lt_or_ge a (n + 1) with hlt | hge
      · have h1 : daysBeforeYear a ≤ daysBeforeYear n := ih (by omega)
        rcases Nat.eq_zero_or_pos n with rfl | hp
        · have e0 : daysBeforeYear 0 = 0 := rfl
          have e1 : daysBeforeYear 1 = 0 := rfl
          omega
        · have h2 := daysBeforeYear_succ n hp
          have h3 := daysInYear_pos n
          omega
      · have ha : a = n + 1 := by omega
        simp [ha]

theorem daysBeforeYear_strict_mono {a b : Nat} (h1 : 1 ≤ a) (h2 : a < b) :
    daysBeforeYear a < daysBeforeYear b := by
  have hs := daysBeforeYear_succ a h1
  have hm : daysBeforeYear (a + 1) ≤ daysBeforeYear b := daysBeforeYear_mono h2
  have hp := daysInYear_pos a
  omega

theorem daysInMonth_pos (y m : Nat) : 1 ≤ daysInMonth y m := by
  unfold daysInMonth
  split_ifs <;> omega

theorem daysInMonth_le (y m : Nat) : daysInMonth y m ≤ 31 := by
  unfold daysInMonth
  split_ifs <;> omega

theorem daysBeforeMonth_succ (y m : Nat) (h1 : 1 ≤ m) (h2 : m ≤ 12) :
    daysBeforeMonth y (m + 1) = daysBeforeMonth y m + daysInMonth y m := by
  unfold daysBeforeMonth daysInMonth
  cases hl : isLeap y <;> interval_cases m <;> simp [hl]

theorem daysBeforeMonth_13 (y : Nat) : daysBeforeMonth y 13 = daysInYear y := by
  unfold daysBeforeMonth daysInYear
  cases hl : isLeap y <;> simp [hl]

theorem daysBeforeMonth_le_succ (y m : Nat) (hm : m ≤ 12) :
    daysBeforeMonth y m ≤ daysBeforeMonth y (m + 1) := by
  rcases Nat.eq_zero_or_pos m with rfl | h1
  · simp [daysBeforeMonth]
  · rw [daysBeforeMonth_succ y m h1 hm]
    omega

theorem daysBeforeMonth_mono (y : Nat) {m1 m2 : Nat} (h : m1 ≤ m2) (h13 : m2 ≤ 13) :
    daysBeforeMonth y m1 ≤ daysBeforeMonth y m2 := by
  induction m2 with
  | zero =>
      have : m1 = 0 := by omega
      simp [this]
  | succ n ih =>
      rcases Nat.lt_or_ge m1 (n + 1) with hlt | hge
      · exact le_trans (ih (by omega) (by omega)) (daysBeforeMonth_le_succ y n (by omega))
      · have : m1 = n + 1 := by omega
        simp [this]
theorem findYearAux_spec (n : Nat) (fuel : Nat) : ∀ y : Nat,
    daysBeforeYear y < n → n ≤ daysBeforeYear (y + fuel + 1) →
    daysBeforeYear (findYearAux n y fuel) < n ∧
      n ≤ daysBeforeYear (findYearAux n y fuel + 1) ∧ y ≤ findYearAux n y fuel := by
  induction fuel with
  | zero =>
      intro y h1 h2
      unfold findYearAux
      exact ⟨h1, h2, Nat.le_refl y⟩
  | succ f ih =>
      intro y h1 h2
      unfold findYearAux
      by_cases hc : n ≤ daysBeforeYear (y + 1)
      · rw [if_pos hc]
        exact ⟨h1, hc, Nat.le_refl y⟩
      · rw [if_neg hc]
        have h1' : daysBeforeYear (y + 1) < n := by omega
        have h2' : n ≤ daysBeforeYear (y + 1 + f + 1) := by
          have he : y + 1 + f + 1 = y + (f + 1) + 1 := by omega
          rw [he]
          exact h2
        have hr := ih (y + 1) h1' h2'
        exact ⟨hr.1, hr.2.1, by omega⟩

theorem findMonthAux_spec (y doy : Nat) (fuel : Nat) : ∀ m : Nat,
    daysBeforeMonth y m < doy → doy ≤ daysBeforeMonth y (m + fuel + 1) →
    daysBeforeMonth y (findMonthAux y doy m fuel) < doy ∧
      doy ≤ daysBeforeMonth y (findMonthAux y doy m fuel + 1) ∧
      m ≤ findMonthAux y doy m fuel ∧ findMonthAux y doy m fuel ≤ m + fuel := by
  induction fuel with
  | zero =>
      intro m h1 h2
      unfold findMonthAux
      exact ⟨h1, h2, Nat.le_refl m, by omega⟩
  | succ f ih =>
      intro m h1 h2
      unfold findMonthAux
      by_cases hc : doy ≤ daysBeforeMonth y (m + 1)
      · rw [if_pos hc]
        exact ⟨h1, hc, Nat.le_refl m, by omega⟩
      · rw [if_neg hc]
        have h1' : daysBeforeMonth y (m + 1) < doy := by omega
        have h2' : doy ≤ daysBeforeMonth y (m + 1 + f + 1) := by
          have he : m + 1 + f + 1 = m + (f + 1) + 1 := by omega
          rw [he]
          exact h2
        have hr := ih (m + 1) h1' h2'
        exact ⟨hr.1, hr.2.1, by omega, by omega⟩

theorem daysBeforeYear_seed (n : Nat) (h : 1 ≤ n) :
    daysBeforeYear ((n - 1) / 366 + 1) < n := by
  unfold daysBeforeYear
  omega

theorem daysBeforeYear_10000 : daysBeforeYear 10000 = maxOrdinal := by decide

theorem daysBeforeMonth_one (y : Nat) : daysBeforeMonth y 1 = 0 := by
  simp [daysBeforeMonth]

theorem ordYear_spec (n : Nat) (h1 : 1 ≤ n) (h2 : n ≤ maxOrdinal) :
    daysBeforeYear (ordYear n) < n ∧ n ≤ daysBeforeYear (ordYear n + 1) ∧
      1 ≤ ordYear n ∧ ordYear n ≤ 9999 := by
  have hseed := daysBeforeYear_seed n h1
  have htop : n ≤ daysBeforeYear ((n - 1) / 366 + 1 + 9999 + 1) := by
    have hge : 10000 ≤ (n - 1) / 366 + 1 + 9999 + 1 := by omega
    have hmono := daysBeforeYear_mono hge
    rw [daysBeforeYear_10000] at hmono
    omega
  have hy := findYearAux_spec n 9999 ((n - 1) / 366 + 1) hseed htop
  rw [show findYearAux n ((n - 1) / 366 + 1) 9999 = ordYear n from rfl] at hy
  obtain ⟨hya, hyb, hyc⟩ := hy
  refine ⟨hya, hyb, by omega, ?_⟩
  by_contra hgt
  have h10k : 10000 ≤ ordYear n := by omega
  have hmono := daysBeforeYear_mono h10k
  rw [daysBeforeYear_10000] at hmono
  omega

theorem ordMonth_spec (n : Nat) (h1 : 1 ≤ n) (h2 : n ≤ maxOrdinal) :
    daysBeforeMonth (ordYear n) (ordMonth n) < ordDoy n ∧
      ordDoy n ≤ daysBeforeMonth (ordYear n) (ordMonth n + 1) ∧
      1 ≤ ordMonth n ∧ ordMonth n ≤ 12 := by
  obtain ⟨hya, hyb, hy1, hy9999⟩ := ordYear_spec n h1 h2
  have hsucc := daysBeforeYear_succ (ordYear n) hy1
  have hdoy1 : 1 ≤ ordDoy n := by unfold ordDoy; omega
  have hdoyt : ordDoy n ≤ daysInYear (ordYear n) := by unfold ordDoy; omega
  have hm0 : daysBeforeMonth (ordYear n) 1 < ordDoy n := by
    rw [daysBeforeMonth_one]
    omega
  have hmt : ordDoy n ≤ daysBeforeMonth (ordYear n) (1 + 11 + 1) := by
    show ordDoy n ≤ daysBeforeMonth (ordYear n) 13
    rw [daysBeforeMonth_13]
    omega
  have hm := findMonthAux_spec (ordYear n) (ordDoy n) 11 1 hm0 hmt
  rw [show findMonthAux (ordYear n) (ordDoy n) 1 11 = ordMonth n from rfl] at hm
  obtain ⟨hma, hmb, hmc, hmd⟩ := hm
  exact ⟨hma, hmb, hmc, by omega⟩

theorem fromOrdinal_spec (n : Nat) (h1 : 1 ≤ n) (h2 : n ≤ maxOrdinal) :
    (fromOrdinal n).Valid ∧ toOrdinal (fromOrdinal n) = n := by
  obtain ⟨hya, hyb, hy1, hy9999⟩ := ordYear_spec n h1 h2
  obtain ⟨hma, hmb, hm1, hm12⟩ := ordMonth_spec n h1 h2
  have hmsucc := daysBeforeMonth_succ (ordYear n) (ordMonth n) hm1 hm12
  have hdoy : ordDoy n = n - daysBeforeYear (ordYear n) := rfl
  constructor
  · unfold fromOrdinal Date.Valid
    dsimp only
    exact ⟨hy1, hy9999, hm1, hm12, by omega, by omega⟩
  · unfold fromOrdinal toOrdinal
    dsimp only
    omega

theorem fromOrdinal_valid (n : Nat) (h1 : 1 ≤ n) (h2 : n ≤ maxOrdinal) :
    (fromOrdinal n).Valid := (fromOrdinal_spec n h1 h2).1

theorem toOrdinal_fromOrdinal (n : Nat) (h1 : 1 ≤ n) (h2 : n ≤ maxOrdinal) :
    toOrdinal (fromOrdinal n) = n := (fromOrdinal_spec n h1 h2).2
theorem toOrdinal_year_lower (d : Date) (h : d.Valid) :
    daysBeforeYear d.year < toOrdinal d := by
  obtain ⟨h1, h2, h3, h4, h5, h6⟩ := h
  unfold toOrdinal
  omega

theorem toOrdinal_year_upper (d : Date) (h : d.Valid) :
    toOrdinal d ≤ daysBeforeYear (d.year + 1) := by
  obtain ⟨h1, h2, h3, h4, h5, h6⟩ := h
  have hsucc := daysBeforeMonth_succ d.year d.month h3 h4
  have hmono : daysBeforeMonth d.year (d.month + 1) ≤ daysBeforeMonth d.year 13 :=
    daysBeforeMonth_mono d.year (by omega) (by omega)
  have h13 := daysBeforeMonth_13 d.year
  have hy := daysBeforeYear_succ d.year h1
  unfold toOrdinal
  omega

theorem toOrdinal_pos (d : Date) (h : d.Valid) : 1 ≤ toOrdinal d := by
  obtain ⟨h1, h2, h3, h4, h5, h6⟩ := h
  unfold toOrdinal
  omega

theorem toOrdinal_le_max (d : Date) (h : d.Valid) : toOrdinal d ≤ maxOrdinal := by
  have hu := toOrdinal_year_upper d h
  obtain ⟨hv1, hv2, hrest⟩ := h
  have hmono : daysBeforeYear (d.year + 1) ≤ daysBeforeYear 10000 :=
    daysBeforeYear_mono (by omega)
  rw [daysBeforeYear_10000] at hmono
  omega

theorem fromOrdinal_toOrdinal (d : Date) (h : d.Valid) :
    fromOrdinal (toOrdinal d) = d := by
  have h1 := toOrdinal_pos d h
  have h2 := toOrdinal_le_max d h
  obtain ⟨hya, hyb, hy1, hy9999⟩ := ordYear_spec (toOrdinal d) h1 h2
  obtain ⟨hma, hmb, hm1, hm12⟩ := ordMonth_spec (toOrdinal d) h1 h2
  have hdl := toOrdinal_year_lower d h
  have hdu := toOrdinal_year_upper d h
  obtain ⟨hv1, hv2, hv3, hv4, hv5, hv6⟩ := h
  -- the year components agree
  have hyear : ordYear (toOrdinal d) = d.year := by
    by_contra hne
    rcases Nat.lt_or_ge (ordYear (toOrdinal d)) d.year with hlt | hge
    · have hmono : daysBeforeYear (ordYear (toOrdinal d) + 1) ≤ daysBeforeYear d.year :=
        daysBeforeYear_mono (by omega)
      omega
    · have hlt2 : d.year < ordYear (toOrdinal d) := by omega
      have hmono : daysBeforeYear (d.year + 1) ≤ daysBeforeYear (ordYear (toOrdinal d)) :=
        daysBeforeYear_mono (by omega)
      omega
  have hdoy : ordDoy (toOrdinal d) = daysBeforeMonth d.year d.month + d.day := by
    unfold ordDoy
    rw [hyear]
    unfold toOrdinal
    omega
  have hmth : ordMonth (toOrdinal d) = d.month := by
    rw [hyear, hdoy] at hma hmb
    have hdsucc := daysBeforeMonth_succ d.year d.month hv3 hv4
    by_contra hne
    rcases Nat.lt_or_ge (ordMonth (toOrdinal d)) d.month with hlt | hge
    · have hmono : daysBeforeMonth d.year (ordMonth (toOrdinal d) + 1) ≤
          daysBeforeMonth d.year d.month :=
        daysBeforeMonth_mono d.year (by omega) (by omega)
      omega
    · have hlt2 : d.month < ordMonth (toOrdinal d) := by omega
      have hmono : daysBeforeMonth d.year (d.month + 1) ≤
          daysBeforeMonth d.year (ordMonth (toOrdinal d)) :=
        daysBeforeMonth_mono d.year (by omega) (by omega)
      omega
  have hday : ordDoy (toOrdinal d) - daysBeforeMonth (ordYear (toOrdinal d)) (ordMonth (toOrdinal d)) = d.day := by
    rw [hyear, hmth, hdoy]
    omega
  unfold fromOrdinal
  rw [hday, hyear, hmth]

theorem toOrdinal_inj (a b : Date) (ha : a.Valid) (hb : b.Valid)
    (h : toOrdinal a = toOrdinal b) : a = b := by
  have hr := fromOrdinal_toOrdinal a ha
  rw [h, fromOrdinal_toOrdinal b hb] at hr
  exact hr.symm

/-! ### Python date arithmetic and parsing lemmas -/

theorem pyDateAddInt_ok (d : Date) (k : Int)
    (h1 : 0 < (toOrdinal d : Int) + k) (h2 : (toOrdinal d : Int) + k ≤ (maxOrdinal : Int)) :
    ∃ r : Date, pyDateAddInt d k = .ok r ∧ r.Valid ∧
      (toOrdinal r : Int) = (toOrdinal d : Int) + k := by
  unfold pyDateAddInt
  rw [if_pos ⟨h1, h2⟩]
  have hn1 : 1 ≤ ((toOrdinal d : Int) + k).toNat := by omega
  have hn2 : ((toOrdinal d : Int) + k).toNat ≤ maxOrdinal := by omega
  refine ⟨fromOrdinal ((toOrdinal d : Int) + k).toNat, rfl, fromOrdinal_valid _ hn1 hn2, ?_⟩
  rw [toOrdinal_fromOrdinal _ hn1 hn2]
  omega

theorem strptimeYmd_valid {s : String} {d : Date} (h : strptimeYmd s = some d) :
    d.Valid := by
  unfold strptimeYmd at h
  split at h
  case h_1 y m dd rest heq =>
    by_cases hc : rest = [] ∧ (Date.mk y m dd).Valid
    · rw [if_pos hc] at h
      injection h with h2
      rw [← h2]
      exact hc.2
    · rw [if_neg hc] at h
      cases h
  case h_2 => cases h

theorem strptimeYmd_empty : strptimeYmd "" = none := rfl

theorem getEventData_of_ne_empty (store : List Event) (today : Date) (s : String)
    (f : String → Except PyError (Date × Date)) (hs : s ≠ "") :
    getEventData store today (some s) f =
      match f s with
      | .ok (s1, e1) =>
          .ok (.found (store.filter (fun ev => inRange s1 e1 ev.date)) (s1, e1))
      | .error .valueError => .ok (.invalid ⟨"Invalid date format."⟩)
      | .error e => .error e := by
  simp only [getEventData]
  rw [if_neg hs]

theorem getEventData_falsy (store : List Event) (today : Date)
    (f : String → Except PyError (Date × Date)) :
    getEventData store today (some "") f = getEventData store today none f := by
  simp only [getEventData]
  rw [if_pos trivial]

theorem filter_day_in_range (store : List Event) (s1 e1 d : Date)
    (h1 : toOrdinal s1 ≤ toOrdinal d) (h2 : toOrdinal d ≤ toOrdinal e1) :
    (store.filter (fun ev => inRange s1 e1 ev.date)).filter (fun ev => ev.date == d)
      = store.filter (fun ev => ev.date == d) := by
  induction store with
  | nil => rfl
  | cons ev rest ih =>
      by_cases hd : ev.date = d
      · have hr : inRange s1 e1 d = true := by
          unfold inRange
          exact decide_eq_true ⟨h1, h2⟩
        simp [List.filter_cons, hr, hd, ih]
      · have hb : (ev.date == d) = false := by
          simp [hd]
        by_cases hr : inRange s1 e1 ev.date = true
        · simp [List.filter_cons, hr, hb, ih]
        · have hr2 : inRange s1 e1 ev.date = false := by
            cases hx : inRange s1 e1 ev.date
            · rfl
            · exact absurd hx hr
          simp [List.filter_cons, hr2, hb, ih]

theorem buildDays_spec (events : List Event) (s1 : Date) (hs : 1 ≤ toOrdinal s1) :
    ∀ (k n : Nat), toOrdinal s1 + n + k ≤ maxOrdinal + 1 →
    ∃ bs, buildDays events s1 n k = .ok bs ∧ bs.length = k ∧
      ∀ (i : Nat) (hlen : i < bs.length),
        (bs.get ⟨i, hlen⟩).day.Valid ∧
        toOrdinal (bs.get ⟨i, hlen⟩).day = toOrdinal s1 + n + i ∧
        (bs.get ⟨i, hlen⟩).events =
          (events.filter (fun ev => ev.date == (bs.get ⟨i, hlen⟩).day)).map serializeEvent := by
  intro k
  induction k with
  | zero =>
      intro n hbound
      refine ⟨[], rfl, rfl, ?_⟩
      intro i hlen
      exact absurd hlen (by simp)
  | succ k ih =>
      intro n hbound
      obtain ⟨r, hr, hrv, hro⟩ :=
        pyDateAddInt_ok s1 (n : Int) (by omega) (by omega)
      obtain ⟨rest, hrest, hlen, hfacts⟩ := ih (n + 1) (by omega)
      refine ⟨{ day := r
                events := (events.filter (fun ev => ev.date == r)).map serializeEvent } :: rest,
              ?_, by simp [hlen], ?_⟩
      · unfold buildDays
        rw [hr, hrest]
      · intro i hilen
        cases i with
        | zero =>
            refine ⟨hrv, ?_, rfl⟩
            simp only [List.get]
            omega
        | succ j =>
            have hj : j < rest.length := by
              simp at hilen
              omega
            have hfact := hfacts j hj
            simp only [List.get]
            exact ⟨hfact.1, by rw [hfact.2.1]; omega, hfact.2.2⟩

theorem pyDateAddInt_no_valueError (d : Date) (k : Int) :
    pyDateAddInt d k ≠ .error .valueError := by
  unfold pyDateAddInt
  split <;> simp

theorem rangeFunc_valueError_iff (s : String)
    (f : String → Except PyError (Date × Date))
    (hf : f = getStartAndEndOfWeek ∨ f = getFirstAndLastDayOfMonth ∨
      f = getFirstAndLastDayOfYear) :
    f s = .error .valueError ↔ strptimeYmd s = none := by
  rcases hf with rfl | rfl | rfl
  · unfold getStartAndEndOfWeek
    cases hp : strptimeYmd s with
    | none => simp
    | some D =>
        simp only [Option.some.injEq, reduceCtorEq, iff_false]
        cases h1 : pyDateAddInt D (-(weekday D : Int)) with
        | error e =>
            have hne := pyDateAddInt_no_valueError D (-(weekday D : Int))
            rw [h1] at hne
            simpa using hne
        | ok st =>
            dsimp only
            cases h2 : pyDateAddInt st 6 with
            | error e =>
                have hne := pyDateAddInt_no_valueError st 6
                rw [h2] at hne
                simpa using hne
            | ok en => simp
  · unfold getFirstAndLastDayOfMonth
    cases hp : strptimeYmd s <;> simp
  · unfold getFirstAndLastDayOfYear
    cases hp : strptimeYmd s <;> simp

theorem eq_of_mem_unique_id (store : List Event)
    (huniq : store.Pairwise (fun a b => a.id ≠ b.id))
    {x E : Event} (hx : x ∈ store) (hE : E ∈ store) (hid : x.id = E.id) : x = E := by
  induction store with
  | nil => cases hx
  | cons a l ih =>
      obtain ⟨ha, hl⟩ := List.pairwise_cons.mp huniq
      rcases List.mem_cons.mp hx with rfl | hx'
      · rcases List.mem_cons.mp hE with rfl | hE'
        · rfl
        · exact absurd hid (ha E hE')
      · rcases List.mem_cons.mp hE with rfl | hE'
        · exact absurd hid.symm (ha x hx')
        · exact ih hl hx' hE'

/-! ### Claim theorems -/

/-- C3 (counterexample): the claim promises a Monday/Sunday pair for every
valid date, but for `9999-12-31` (a valid date that parses under the fixed
format) the computation `start_of_week + timedelta(days=6)` overflows
Python's calendar range, so `get_start_and_end_of_week` raises
`OverflowError` instead of returning a pair. -/
theorem c3_counterexample :
    strptimeYmd "9999-12-31" = some ⟨9999, 12, 31⟩ ∧
    (Date.mk 9999 12 31).Valid ∧
    getStartAndEndOfWeek "9999-12-31" = .error .overflowError := by
  refine ⟨by decide, by decide, by decide⟩

/-- C3 (amended): for every valid date `D` (given as any string parsing to
`D`) whose containing week's Sunday still lies in Python's date range,
`get_start_and_end_of_week` returns `(start, end)` with `start` the Monday
of the week containing `D` (`start = D - weekday(D)`, so `start ≤ D`,
`weekday start = 0`) and `end = start + 6` days; `'2024-08-15'` yields
`(2024-08-12, 2024-08-18)`. -/
theorem c3_week_range (s : String) (D : Date) (hp : strptimeYmd s = some D)
    (hfit : toOrdinal D - weekday D + 6 ≤ maxOrdinal) :
    ∃ st en : Date,
      getStartAndEndOfWeek s = .ok (st, en) ∧ st.Valid ∧ en.Valid ∧
      weekday st = 0 ∧
      toOrdinal st = toOrdinal D - weekday D ∧
      toOrdinal st ≤ toOrdinal D ∧ toOrdinal D ≤ toOrdinal en ∧
      toOrdinal en = toOrdinal st + 6 ∧
      getStartAndEndOfWeek "2024-08-15" = .ok (⟨2024, 8, 12⟩, ⟨2024, 8, 18⟩) := by
  have hv := strptimeYmd_valid hp
  have hn1 : 1 ≤ toOrdinal D := toOrdinal_pos D hv
  have hnm : toOrdinal D ≤ maxOrdinal := toOrdinal_le_max D hv
  have hw6 : weekday D ≤ 6 := by
    unfold weekday
    omega
  have hw1 : 1 ≤ toOrdinal D - weekday D := by
    unfold weekday
    omega
  obtain ⟨st, hst, hstv, hsto⟩ :=
    pyDateAddInt_ok D (-(weekday D : Int)) (by omega) (by omega)
  have hstn : toOrdinal st = toOrdinal D - weekday D := by omega
  obtain ⟨en, hen, henv, heno⟩ := pyDateAddInt_ok st 6 (by omega) (by omega)
  have henn : toOrdinal en = toOrdinal st + 6 := by omega
  refine ⟨st, en, ?_, hstv, henv, ?_, hstn, by omega, by omega, henn, by decide⟩
  · unfold getStartAndEndOfWeek
    simp only [hp, hst, hen]
  · unfold weekday
    unfold weekday at hstn
    omega

/-- C4: for every valid date `D` (given as any string parsing to `D`),
`get_first_and_last_day_of_month` returns day 1 and the last calendar day
of `D`'s month: both endpoints are valid dates, no later day of that month
is valid, and the leap-year examples `2024-02-15 ↦ (02-01, 02-29)` and
`2023-02-15 ↦ (02-01, 02-28)` hold. -/
theorem c4_month_range (s : String) (D : Date) (hp : strptimeYmd s = some D) :
    getFirstAndLastDayOfMonth s =
      .ok (⟨D.year, D.month, 1⟩, ⟨D.year, D.month, daysInMonth D.year D.month⟩) ∧
    (Date.mk D.year D.month 1).Valid ∧
    (Date.mk D.year D.month (daysInMonth D.year D.month)).Valid ∧
    (∀ k : Nat, daysInMonth D.year D.month < k → ¬ (Date.mk D.year D.month k).Valid) ∧
    getFirstAndLastDayOfMonth "2024-02-15" = .ok (⟨2024, 2, 1⟩, ⟨2024, 2, 29⟩) ∧
    getFirstAndLastDayOfMonth "2023-02-15" = .ok (⟨2023, 2, 1⟩, ⟨2023, 2, 28⟩) := by
  obtain ⟨h1, h2, h3, h4, h5, h6⟩ := strptimeYmd_valid hp
  refine ⟨?_, ⟨h1, h2, h3, h4, Nat.le_refl 1, daysInMonth_pos D.year D.month⟩,
    ⟨h1, h2, h3, h4, daysInMonth_pos D.year D.month, Nat.le_refl _⟩, ?_, by decide, by decide⟩
  · unfold getFirstAndLastDayOfMonth
    rw [hp]
  · intro k hk hvk
    obtain ⟨-, -, -, -, -, hday⟩ := hvk
    dsimp only at hday
    omega

/-- C2 (counterexample): the claim says the fixed 400 body is returned
exactly when the text does not match the shape `YYYY-MM-DD`; but
`"2024-02-30"` matches that shape and still produces the 400 body, because
`strptime` also rejects out-of-range calendar dates. -/
theorem c2_counterexample :
    specFormatMatch "2024-02-30" = true ∧
    baseGet [] userA ⟨2024, 8, 15⟩ (some "2024-02-30") getStartAndEndOfWeek "week"
      = .ok (.badRequest ⟨"Invalid date format."⟩) := by
  refine ⟨by decide, by decide⟩

/-- C2 (amended): for every store and supplied truthy (non-empty) date
string, a week, month or year report request returns the 400-equivalent
response with body `{"error": "Invalid date format."}` exactly when the
string fails to parse under Python's `%Y-%m-%d` (a 4-digit year, a 1- or
2-digit month and day, and an in-range calendar date); the outcome on
failure is the same for every store, so no event query is involved.  A
supplied empty string is falsy under `if date_str:`, so the request
behaves as if no date had been supplied. -/
theorem c2_invalid_date_400 (store : List Event) (u : User) (today : Date)
    (s : String) (name : String) (f : String → Except PyError (Date × Date))
    (hf : f = getStartAndEndOfWeek ∨ f = getFirstAndLastDayOfMonth ∨
      f = getFirstAndLastDayOfYear) (hse : s ≠ "") :
    (baseGet store u today (some s) f name = .ok (.badRequest ⟨"Invalid date format."⟩)
      ↔ strptimeYmd s = none) ∧
    baseGet store u today (some "") f name = baseGet store u today none f name := by
  have hiff := rangeFunc_valueError_iff s f hf
  constructor
  · constructor
    · intro hres
      rw [← hiff]
      cases hfs : f s with
      | error e =>
          cases e with
          | valueError => rfl
          | overflowError =>
              simp only [baseGet, getEventData_of_ne_empty store today s f hse, hfs] at hres
              simp at hres
      | ok p =>
          obtain ⟨s1, e1⟩ := p
          simp only [baseGet, getEventData_of_ne_empty store today s f hse, hfs] at hres
          cases hbd : buildDays (store.filter (fun ev => inRange s1 e1 ev.date)) s1 0
              ((toOrdinal e1 : Int) - (toOrdinal s1 : Int) + 1).toNat with
          | error e =>
              rw [hbd] at hres
              simp at hres
          | ok bs =>
              rw [hbd] at hres
              simp at hres
    · intro hnone
      have hval : f s = .error .valueError := hiff.mpr hnone
      simp only [baseGet, getEventData_of_ne_empty store today s f hse, hval]
  · simp only [baseGet, getEventData_falsy]

/-- C1: whenever a week, month or year request's range function resolves
the supplied date string to a valid inclusive range `[s1, e1]`, the
response carries the period name as key, the label
`"{start} - {end}"`, and exactly `(end - start).days + 1` day buckets whose
days are the consecutive calendar days from `s1` to `e1` in increasing
order (the i-th bucket's day has ordinal `toOrdinal s1 + i`), each holding
exactly the serialized events of that day — an empty list for a day with
no events, never an omitted bucket. -/
theorem c1_period_report (store : List Event) (u : User) (today : Date)
    (s name : String) (f : String → Except PyError (Date × Date))
    (hf3 : f = getStartAndEndOfWeek ∨ f = getFirstAndLastDayOfMonth ∨
      f = getFirstAndLastDayOfYear)
    (s1 e1 : Date) (hf : f s = .ok (s1, e1)) (hs : s1.Valid) (he : e1.Valid)
    (hle : toOrdinal s1 ≤ toOrdinal e1) :
    ∃ r : Report,
      baseGet store u today (some s) f name = .ok (.ok r) ∧
      r.periodKey = name ∧
      r.periodLabel = dateToString s1 ++ " - " ++ dateToString e1 ∧
      r.days.length = toOrdinal e1 - toOrdinal s1 + 1 ∧
      (∀ (i : Nat) (hi : i < r.days.length),
        (r.days.get ⟨i, hi⟩).day.Valid ∧
        toOrdinal (r.days.get ⟨i, hi⟩).day = toOrdinal s1 + i ∧
        (r.days.get ⟨i, hi⟩).events =
          (store.filter (fun ev => ev.date == (r.days.get ⟨i, hi⟩).day)).map
            serializeEvent) := by
  have hse : s ≠ "" := by
    intro hcon
    have h0 : f "" = .error .valueError :=
      (rangeFunc_valueError_iff "" f hf3).mpr strptimeYmd_empty
    rw [hcon, h0] at hf
    cases hf
  have hs1 : 1 ≤ toOrdinal s1 := toOrdinal_pos s1 hs
  have he1 : toOrdinal e1 ≤ maxOrdinal := toOrdinal_le_max e1 he
  obtain ⟨bs, hbs, hblen, hbfacts⟩ :=
    buildDays_spec (store.filter (fun ev => inRange s1 e1 ev.date)) s1 hs1
      ((toOrdinal e1 : Int) - (toOrdinal s1 : Int) + 1).toNat 0 (by omega)
  refine ⟨{ periodKey := name
            periodLabel := dateToString s1 ++ " - " ++ dateToString e1
            days := bs }, ?_, rfl, rfl, ?_, ?_⟩
  · simp only [baseGet, getEventData_of_ne_empty store today s f hse, hf, hbs]
  · simp only
    omega
  · intro i hi
    simp only at hi ⊢
    obtain ⟨hdv, hdo, hde⟩ := hbfacts i hi
    refine ⟨hdv, by omega, ?_⟩
    rw [hde]
    rw [filter_day_in_range store s1 e1 (bs.get ⟨i, hi⟩).day (by omega) (by omega)]

/-- C1 witness at a concrete input: the week request for `2024-08-15`. -/
theorem c1_witness :
    ∃ r : Report,
      baseGet [] userA ⟨2024, 8, 15⟩ (some "2024-08-15") getStartAndEndOfWeek "week"
        = .ok (.ok r) ∧
      r.periodKey = "week" ∧
      r.periodLabel = dateToString ⟨2024, 8, 12⟩ ++ " - " ++ dateToString ⟨2024, 8, 18⟩ ∧
      r.days.length = toOrdinal ⟨2024, 8, 18⟩ - toOrdinal ⟨2024, 8, 12⟩ + 1 ∧
      (∀ (i : Nat) (hi : i < r.days.length),
        (r.days.get ⟨i, hi⟩).day.Valid ∧
        toOrdinal (r.days.get ⟨i, hi⟩).day = toOrdinal ⟨2024, 8, 12⟩ + i ∧
        (r.days.get ⟨i, hi⟩).events =
          (List.filter (fun ev => ev.date == (r.days.get ⟨i, hi⟩).day) []).map
            serializeEvent) :=
  c1_period_report [] userA ⟨2024, 8, 15⟩ "2024-08-15" "week" getStartAndEndOfWeek
    (Or.inl rfl) ⟨2024, 8, 12⟩ ⟨2024, 8, 18⟩ (by decide) (by decide) (by decide) (by decide)

/-- C2 witness at a concrete input: the month request for the unparsable
string `"not-a-date"`. -/
theorem c2_witness :
    (baseGet [] userA ⟨2024, 1, 1⟩ (some "not-a-date") getFirstAndLastDayOfMonth "month"
        = .ok (.badRequest ⟨"Invalid date format."⟩)
      ↔ strptimeYmd "not-a-date" = none) ∧
    baseGet [] userA ⟨2024, 1, 1⟩ (some "") getFirstAndLastDayOfMonth "month"
      = baseGet [] userA ⟨2024, 1, 1⟩ none getFirstAndLastDayOfMonth "month" :=
  c2_invalid_date_400 [] userA ⟨2024, 1, 1⟩ "not-a-date" "month"
    getFirstAndLastDayOfMonth (Or.inr (Or.inl rfl)) (by decide)

/-- C3 witness at a concrete input: the week containing `2024-08-15`. -/
theorem c3_witness :
    ∃ st en : Date,
      getStartAndEndOfWeek "2024-08-15" = .ok (st, en) ∧ st.Valid ∧ en.Valid ∧
      weekday st = 0 ∧
      toOrdinal st = toOrdinal ⟨2024, 8, 15⟩ - weekday ⟨2024, 8, 15⟩ ∧
      toOrdinal st ≤ toOrdinal ⟨2024, 8, 15⟩ ∧
      toOrdinal ⟨2024, 8, 15⟩ ≤ toOrdinal en ∧
      toOrdinal en = toOrdinal st + 6 ∧
      getStartAndEndOfWeek "2024-08-15" = .ok (⟨2024, 8, 12⟩, ⟨2024, 8, 18⟩) :=
  c3_week_range "2024-08-15" ⟨2024, 8, 15⟩ (by decide) (by decide)

/-- C4 witness at a concrete input: the month of `2024-02-15` (a leap
February). -/
theorem c4_witness :
    getFirstAndLastDayOfMonth "2024-02-15" =
      .ok (⟨2024, 2, 1⟩, ⟨2024, 2, daysInMonth 2024 2⟩) ∧
    (Date.mk 2024 2 1).Valid ∧
    (Date.mk 2024 2 (daysInMonth 2024 2)).Valid ∧
    (∀ k : Nat, daysInMonth 2024 2 < k → ¬ (Date.mk 2024 2 k).Valid) ∧
    getFirstAndLastDayOfMonth "2024-02-15" = .ok (⟨2024, 2, 1⟩, ⟨2024, 2, 29⟩) ∧
    getFirstAndLastDayOfMonth "2023-02-15" = .ok (⟨2023, 2, 1⟩, ⟨2023, 2, 28⟩) :=
  c4_month_range "2024-02-15" ⟨2024, 2, 15⟩ (by decide)

/-- C5: report responses do not depend on which authenticated user asks:
the day/week/month/year views never consult the requester, and the event
set resolved for a period is the full store filtered only by date range
(no ownership filter). -/
theorem c5_requester_blind (store : List Event) (u1 u2 : User) (today : Date)
    (dateStr : Option String) (f : String → Except PyError (Date × Date))
    (name : String) :
    baseGet store u1 today dateStr f name = baseGet store u2 today dateStr f name ∧
    dayGet store u1 today dateStr = dayGet store u2 today dateStr ∧
    (∀ (s : String) (s1 e1 : Date), s ≠ "" → f s = .ok (s1, e1) →
      getEventData store today (some s) f =
        .ok (.found (store.filter (fun ev => inRange s1 e1 ev.date)) (s1, e1))) := by
  refine ⟨rfl, rfl, ?_⟩
  intro s s1 e1 hse hfs
  rw [getEventData_of_ne_empty store today s f hse, hfs]

/-- C5 witness at a concrete input: two different users get the same week
report, and the resolved event set for the range is date-filtered only. -/
theorem c5_witness :
    baseGet [eventOfB] userA ⟨2024, 8, 15⟩ (some "2024-08-15") getStartAndEndOfWeek "week"
      = baseGet [eventOfB] userB ⟨2024, 8, 15⟩ (some "2024-08-15") getStartAndEndOfWeek "week" ∧
    dayGet [eventOfB] userA ⟨2024, 8, 15⟩ (some "2024-08-15")
      = dayGet [eventOfB] userB ⟨2024, 8, 15⟩ (some "2024-08-15") ∧
    getEventData [eventOfB] ⟨2024, 8, 15⟩ (some "2024-08-15") getStartAndEndOfWeek =
      .ok (.found ([eventOfB].filter
        (fun ev => inRange ⟨2024, 8, 12⟩ ⟨2024, 8, 18⟩ ev.date)) (⟨2024, 8, 12⟩, ⟨2024, 8, 18⟩)) := by
  have h := c5_requester_blind [eventOfB] userA userB ⟨2024, 8, 15⟩
    (some "2024-08-15") getStartAndEndOfWeek "week"
  exact ⟨h.1, h.2.1, h.2.2 "2024-08-15" ⟨2024, 8, 12⟩ ⟨2024, 8, 18⟩ (by decide) (by decide)⟩

/-- C6: for an authenticated user who is not the creator of an event, the
detail endpoint resolves retrieve, update and delete for that event's id
as not-found, because its queryset is restricted to the requester's own
events; independently, the object-level permission grants access exactly
when the requester is the event's creator. -/
theorem c6_detail_owner_only (store : List Event) (u : User) (E : Event)
    (hmem : E ∈ store) (hne : E.creator.pk ≠ u.pk)
    (huniq : store.Pairwise (fun a b => a.id ≠ b.id)) :
    detailDispatch store u E.id = .notFound ∧
    retrieveEvent store u E.id = .notFound ∧
    (∀ b : EventBody, updateEvent store u E.id b = .notFound) ∧
    deleteEvent store u E.id = .notFound ∧
    (∀ (v : User) (e : Event), hasObjectPermission v e = true ↔ e.creator.pk = v.pk) := by
  have hobj : getObject store u E.id = none := by
    unfold getObject
    rw [List.find?_eq_none]
    intro x hx hpx
    unfold detailQueryset at hx
    have hxm := List.mem_filter.mp hx
    have hxs : x ∈ store := hxm.1
    have hxu : userEq x.creator u = true := hxm.2
    have hxid : x.id = E.id := by simpa [beq_iff_eq] using hpx
    have hxE : x = E := eq_of_mem_unique_id store huniq hxs hmem hxid
    rw [hxE] at hxu
    unfold userEq at hxu
    rw [beq_iff_eq] at hxu
    exact hne hxu
  have hdisp : detailDispatch store u E.id = .notFound := by
    unfold detailDispatch
    rw [hobj]
  refine ⟨hdisp, ?_, ?_, ?_, ?_⟩
  · unfold retrieveEvent
    rw [hdisp]
  · intro b
    unfold updateEvent
    rw [hdisp]
  · unfold deleteEvent
    rw [hdisp]
  · intro v e
    unfold hasObjectPermission userEq
    exact beq_iff_eq

/-- C6 witness at a concrete input: `userA` cannot see `userB`'s event via
the detail endpoint, yet the permission predicate is creator-equality. -/
theorem c6_witness :
    detailDispatch [eventOfB] userA eventOfB.id = .notFound ∧
    retrieveEvent [eventOfB] userA eventOfB.id = .notFound ∧
    (∀ b : EventBody, updateEvent [eventOfB] userA eventOfB.id b = .notFound) ∧
    deleteEvent [eventOfB] userA eventOfB.id = .notFound ∧
    (∀ (v : User) (e : Event), hasObjectPermission v e = true ↔ e.creator.pk = v.pk) :=
  c6_detail_owner_only [eventOfB] userA eventOfB (by simp) (by decide)
    (by simp)

/-- C7: a create request always produces an event whose creator is the
requesting user — the serializer's writable fields flow from the body, but
any client-supplied creator (or id/pkid) value is discarded by validation,
so the result's creator is the requester no matter what the body holds. -/
theorem c7_create_forces_creator (u : User) (b : EventBody) (newPkid newId : Nat) :
    (performCreate u b newPkid newId).creator = u ∧
    (performCreate u b newPkid newId).pkid = newPkid ∧
    (performCreate u b newPkid newId).id = newId ∧
    (performCreate u b newPkid newId).name = b.name ∧
    (performCreate u b newPkid newId).description = b.description ∧
    (performCreate u b newPkid newId).date = b.date ∧
    (performCreate u b newPkid newId).start_event = b.start_event ∧
    (performCreate u b newPkid newId).end_event = b.end_event :=
  ⟨rfl, rfl, rfl, rfl, rfl, rfl, rfl, rfl⟩

/-- C8: the single-day endpoint resolves exactly one date — the parsed
supplied date, or the server's current date — returns precisely the events
whose date equals that date, and answers with the flat `{day, events}`
structure (no period label, no per-day bucket list).  A non-empty
unparsable string yields the fixed 400 body; a supplied empty string is
falsy under `if day:` and behaves like an absent parameter. -/
theorem c8_day_endpoint (store : List Event) (u : User) (today : Date) :
    (∀ (s : String) (d : Date), strptimeYmd s = some d →
      dayGet store u today (some s) =
        .ok ⟨s, (store.filter (fun ev => ev.date == d)).map serializeEvent⟩) ∧
    dayGet store u today none =
      .ok ⟨dateToString today,
        (store.filter (fun ev => ev.date == today)).map serializeEvent⟩ ∧
    (∀ s : String, s ≠ "" → strptimeYmd s = none →
      dayGet store u today (some s) = .badRequest ⟨"Invalid date format."⟩) ∧
    dayGet store u today (some "") = dayGet store u today none := by
  refine ⟨?_, rfl, ?_, ?_⟩
  · intro s d hp
    have hse : s ≠ "" := by
      intro hcon
      rw [hcon, strptimeYmd_empty] at hp
      cases hp
    simp only [dayGet]
    rw [if_neg hse, hp]
  · intro s hse hp
    simp only [dayGet]
    rw [if_neg hse, hp]
  · simp only [dayGet]
    rw [if_pos trivial]

/-- C8 witness at a concrete input: one event on the requested day. -/
theorem c8_witness :
    dayGet [eventOfB] userA ⟨2024, 3, 1⟩ (some "2024-08-15") =
      .ok ⟨"2024-08-15",
        (List.filter (fun ev => ev.date == (⟨2024, 8, 15⟩ : Date)) [eventOfB]).map
          serializeEvent⟩ ∧
    dayGet [eventOfB] userA ⟨2024, 3, 1⟩ none =
      .ok ⟨dateToString ⟨2024, 3, 1⟩,
        (List.filter (fun ev => ev.date == (⟨2024, 3, 1⟩ : Date)) [eventOfB]).map
          serializeEvent⟩ ∧
    dayGet [eventOfB] userA ⟨2024, 3, 1⟩ (some "bogus")
      = .badRequest ⟨"Invalid date format."⟩ ∧
    dayGet [eventOfB] userA ⟨2024, 3, 1⟩ (some "")
      = dayGet [eventOfB] userA ⟨2024, 3, 1⟩ none := by
  have h := c8_day_endpoint [eventOfB] userA ⟨2024, 3, 1⟩
  exact ⟨h.1 "2024-08-15" ⟨2024, 8, 15⟩ (by decide), h.2.1,
    h.2.2.1 "bogus" (by decide) (by decide), h.2.2.2⟩

/-- C9: a PUT update writes exactly the serializer's writable fields
(name, description, date, start_event, end_event) from the body and leaves
creator, id and pkid of the stored event untouched, whatever the body
contains for them. -/
theorem c9_update_frame (inst : Event) (b : EventBody) :
    (serializerUpdate inst (serializerValidate b)).creator = inst.creator ∧
    (serializerUpdate inst (serializerValidate b)).id = inst.id ∧
    (serializerUpdate inst (serializerValidate b)).pkid = inst.pkid ∧
    (serializerUpdate inst (serializerValidate b)).name = b.name ∧
    (serializerUpdate inst (serializerValidate b)).description = b.description ∧
    (serializerUpdate inst (serializerValidate b)).date = b.date ∧
    (serializerUpdate inst (serializerValidate b)).start_event = b.start_event ∧
    (serializerUpdate inst (serializerValidate b)).end_event = b.end_event :=
  ⟨rfl, rfl, rfl, rfl, rfl, rfl, rfl, rfl⟩

/-- C10: when a date parameter is supplied and parses, the day response
echoes the supplied text verbatim as `day` (a non-zero-padded input such
as `"2024-8-15"` is returned as given, not normalized); with no parameter,
`day` is the serialized server date. -/
theorem c10_day_echo (store : List Event) (u : User) (today : Date) :
    (∀ (s : String) (d : Date), strptimeYmd s = some d →
      ∃ r : DayData, dayGet store u today (some s) = .ok r ∧ r.day = s) ∧
    (∃ r : DayData, dayGet store u today none = .ok r ∧ r.day = dateToString today) ∧
    (∃ r : DayData, dayGet store u today (some "2024-8-15") = .ok r ∧
      r.day = "2024-8-15" ∧ r.day ≠ dateToString ⟨2024, 8, 15⟩) := by
  refine ⟨?_, ⟨_, rfl, rfl⟩, ?_⟩
  · intro s d hp
    have hse : s ≠ "" := by
      intro hcon
      rw [hcon, strptimeYmd_empty] at hp
      cases hp
    refine ⟨⟨s, (store.filter (fun ev => ev.date == d)).map serializeEvent⟩, ?_, rfl⟩
    simp only [dayGet]
    rw [if_neg hse, hp]
  · refine ⟨⟨"2024-8-15",
      (store.filter (fun ev => ev.date == (⟨2024, 8, 15⟩ : Date))).map serializeEvent⟩,
      ?_, rfl, by
        dsimp only
        decide⟩
    simp only [dayGet]
    rw [if_neg (by decide),
      show strptimeYmd "2024-8-15" = some ⟨2024, 8, 15⟩ from by decide]

/-- C10 witness at a concrete input: the unpadded string `"2024-8-15"` is
echoed verbatim while the store is consulted for the parsed date. -/
theorem c10_witness :
    (∃ r : DayData, dayGet [eventOfB] userB ⟨2024, 1, 2⟩ (some "2024-8-15") = .ok r ∧
      r.day = "2024-8-15") ∧
    (∃ r : DayData, dayGet [eventOfB] userB ⟨2024, 1, 2⟩ none = .ok r ∧
      r.day = dateToString ⟨2024, 1, 2⟩) := by
  have h := c10_day_echo [eventOfB] userB ⟨2024, 1, 2⟩
  exact ⟨h.1 "2024-8-15" ⟨2024, 8, 15⟩ (by decide), h.2.1⟩

end CalendarApi
